import Mathlib

/-!
Shallow embedding of `server.js` (repository `my-app-server`).

The server bridges HTTP clients to a single agent connected over a
WebSocket.  We embed the pure/decision parts of the code: the loose
path-matching predicate of `fetchFileFromAgent`, the fetch-waiter
lifecycle, the `/files/:dir` polling handler, the WebSocket message
handler, the archive-assembly loop of `/download-all/:dir`, and the
post-send cleanup of `/file/view/:dir/:filename`.

JavaScript strings are embedded as Lean `String`; all string operations
are defined on the underlying character list so that they evaluate by
kernel reduction.
-/

/-- JS `s.replace(/\\/g, "/")`: every backslash becomes a forward slash. -/
def normalizeSlashes (s : String) : String :=
  String.mk (s.data.map (fun c => if c = '\\' then '/' else c))

/-- JS `s.endsWith(post)`: `post` is a suffix of `s`. -/
def jsEndsWith (s post : String) : Bool :=
  post.data.isSuffixOf s.data

/-- JS `s.startsWith(pre)`: `pre` is a prefix of `s`. -/
def jsStartsWith (s p : String) : Bool :=
  p.data.isPrefixOf s.data

/-- Node `path.basename` (posix): drop trailing slashes, then take the
last path segment. -/
def basename (p : String) : String :=
  String.mk (((p.data.reverse.dropWhile (fun c => c = '/')).takeWhile
    (fun c => c ≠ '/')).reverse)

/-- JS `p.replace(/[\/\\]/g, "_")` (server.js line 51): staging name of an
arrived file, every path separator replaced by an underscore. -/
def sanitizeName (p : String) : String :=
  String.mk (p.data.map (fun c => if c = '/' || c = '\\' then '_' else c))

/-- The staging directory (`UPLOAD_DIR`, `path.join(__dirname, "uploads")`);
the `__dirname` prefix is abbreviated to the directory name. -/
def UPLOAD_DIR : String := "uploads"

/-- `path.join(UPLOAD_DIR, safeName)` for an arrived file. -/
def stagedSavePath (safeName : String) : String :=
  UPLOAD_DIR ++ "/" ++ safeName

/-- The loose-matching predicate of `fetchFileFromAgent`
(server.js lines 142-148): after normalizing backslashes, exact match,
arrived-ends-with-requested, requested-ends-with-arrived, or equal
basenames. -/
def looseMatch (reqPath resPath : String) : Bool :=
  (normalizeSlashes reqPath == normalizeSlashes resPath) ||
  jsEndsWith (normalizeSlashes resPath) (normalizeSlashes reqPath) ||
  jsEndsWith (normalizeSlashes reqPath) (normalizeSlashes resPath) ||
  (basename (normalizeSlashes reqPath) == basename (normalizeSlashes resPath))

/-- The matching predicate with the exact-equality rule dropped,
keeping only the two suffix rules and the basename rule. -/
def looseMatchDrop (reqPath resPath : String) : Bool :=
  jsEndsWith (normalizeSlashes resPath) (normalizeSlashes reqPath) ||
  jsEndsWith (normalizeSlashes reqPath) (normalizeSlashes resPath) ||
  (basename (normalizeSlashes reqPath) == basename (normalizeSlashes resPath))

/-- JS `filename.match(/^[a-zA-Z]:/)` is truthy: a letter followed by a
colon starts the string. -/
def startsWithDriveLetter (s : String) : Bool :=
  match s.data with
  | c1 :: c2 :: _ => c1.isAlpha && c2 = ':'
  | _ => false

/-- JS `dir.replace(/[\/\\]$/, "")` (server.js line 121): remove one
trailing slash or backslash, if present. -/
def stripTrailingSep (s : String) : String :=
  match s.data.reverse with
  | [] => s
  | c :: rest => if c = '/' || c = '\\' then String.mk rest.reverse else s

/-- The logical request path computed by `fetchFileFromAgent`
(server.js lines 117-123): a filename starting with "/", "storage" or a
drive letter is used verbatim, otherwise it is joined to `dir` (one
trailing separator stripped) with a single "/". -/
def computeRequestPath (dir filename : String) : String :=
  if jsStartsWith filename "/" || jsStartsWith filename "storage" ||
      startsWithDriveLetter filename then
    filename
  else
    stripTrailingSep dir ++ "/" ++ filename

/-- The string's first character is a path separator ("/" or "\"),
the reading of "starts with a path separator" that matches how the
code treats separators everywhere else. -/
def headIsSep (s : String) : Bool :=
  match s.data with
  | c :: _ => c = '/' || c = '\\'
  | [] => false

/-- The string's first character is a forward slash. -/
def headIsSlash (s : String) : Bool :=
  match s.data with
  | c :: _ => c = '/'
  | [] => false

/-- The request path following the claim's words, reading "path
separator" uniformly as the separators the code recognizes elsewhere
(both "/" and "\"): a filename starting with either separator counts as
absolute-looking. -/
def computeRequestPathClaim (dir filename : String) : String :=
  if headIsSep filename ||
      jsStartsWith filename "storage" || startsWithDriveLetter filename then
    filename
  else
    stripTrailingSep dir ++ "/" ++ filename

/-- The request path following the amended claim: only a leading
forward slash (not a backslash) makes the filename absolute-looking. -/
def computeRequestPathAmended (dir filename : String) : String :=
  if headIsSlash filename ||
      jsStartsWith filename "storage" || startsWithDriveLetter filename then
    filename
  else
    stripTrailingSep dir ++ "/" ++ filename

/-- An event observed by a registered fetch waiter: a `file` arrival
(the `fileEvents.emit('file', ...)` of server.js line 58, carrying the
arrived logical path and its staged save path), or the 60-second timer
firing (server.js lines 130-133). -/
inductive FetchEvent
  | arrival (path savePath : String)
  | timeoutFire
deriving DecidableEq

/-- State of one fetch waiter: still registered on the emitter, or
resolved (with a staged save path, or `none` on timeout).  A resolved
waiter has been deregistered (`fileEvents.off`), so it is absorbing. -/
inductive WaiterState
  | waiting
  | resolvedWith (r : Option String)
deriving DecidableEq

/-- One step of the waiter registered by `fetchFileFromAgent`
(server.js lines 128-158) for requested path `filePath`: a matching
arrival resolves with its save path and deregisters; a non-matching
arrival is ignored; the timer firing resolves with `none` and
deregisters; a resolved (deregistered) waiter ignores everything. -/
def waiterStep (filePath : String) : WaiterState → FetchEvent → WaiterState
  | WaiterState.waiting, FetchEvent.arrival p sp =>
      if looseMatch filePath p then WaiterState.resolvedWith (some sp)
      else WaiterState.waiting
  | WaiterState.waiting, FetchEvent.timeoutFire => WaiterState.resolvedWith none
  | WaiterState.resolvedWith r, _ => WaiterState.resolvedWith r

/-- Run a freshly registered waiter over a sequence of events. -/
def runWaiter (filePath : String) (evs : List FetchEvent) : WaiterState :=
  evs.foldl (waiterStep filePath) WaiterState.waiting

/-- Commands the server sends on the agent WebSocket. -/
inductive AgentCommand
  | requestDir (path : String)
  | requestFile (path : String)
deriving DecidableEq

/-- Outcome of the `/files/:dir` handler: the listing (200), agent not
connected (503), or no files received before the deadline (504). -/
inductive FilesResult
  | listing (files : List String)
  | agentUnavailable
  | listingTimeout
deriving DecidableEq

/-- The JS condition `!(!tempDirFiles[dir] || tempDirFiles[dir].length === 0)`:
a cache entry counts only when present and non-empty; an empty pushed
list is indistinguishable from an absent entry. -/
def isNonEmptyListing : Option (List String) → Bool
  | some (_ :: _) => true
  | _ => false

/-- The polling loop of `/files/:dir` (server.js lines 100-103 plus the
final re-check of line 106): `cacheSeq k` is the content of
`tempDirFiles[dir]` at the k-th read; each step reads once, returning
the listing on the first non-empty read; `fuel` is the number of
100 ms sleeps the 15 s deadline allows. -/
def pollForListing (cacheSeq : Nat → Option (List String)) :
    Nat → Nat → Option (List String)
  | k, 0 => if isNonEmptyListing (cacheSeq k) then cacheSeq k else none
  | k, fuel + 1 =>
      if isNonEmptyListing (cacheSeq k) then cacheSeq k
      else pollForListing cacheSeq (k + 1) fuel

/-- The `/files/:dir` handler (server.js lines 87-111): 503 when no
agent socket is open; otherwise, a non-empty cached listing is returned
immediately with no command sent; otherwise a `request_dir` command is
sent and the cache is polled until non-empty or the deadline, ending in
the listing or a 504.  Returns the result and the commands sent. -/
def filesHandler (dir : String) (agentConnected : Bool)
    (cacheSeq : Nat → Option (List String)) (fuel : Nat) :
    FilesResult × List AgentCommand :=
  if !agentConnected then (FilesResult.agentUnavailable, [])
  else if isNonEmptyListing (cacheSeq 0) then
    (FilesResult.listing ((cacheSeq 0).getD []), [])
  else
    match pollForListing cacheSeq 1 fuel with
    | some l => (FilesResult.listing l, [AgentCommand.requestDir dir])
    | none => (FilesResult.listingTimeout, [AgentCommand.requestDir dir])

/-- A parsed JSON value, as produced by `JSON.parse`. -/
inductive JsonVal
  | jnull
  | jbool (b : Bool)
  | jstr (s : String)
  | jnum (n : Int)
  | jarr (elems : List JsonVal)
  | jobj (fields : List (String × JsonVal))

/-- A JavaScript exception escaping the `ws.on("message")` handler:
`JSON.parse` throwing `SyntaxError` on invalid JSON, or a `TypeError`
from using a missing/unsuitable field. -/
inductive JsError
  | syntaxError
  | typeError
deriving DecidableEq

/-- Side effects of the message handler: staging an arrived file on
disk, emitting the `file` event for the waiters, or storing a pushed
directory listing in `tempDirFiles` (the raw `dir` and `files` values
are recorded). -/
inductive WsEffect
  | stageFile (savePath : String) (content : JsonVal)
  | emitFileEvent (path savePath : String)
  | storeDirListing (dirVal : Option JsonVal) (files : JsonVal)

/-- JS `data.type === tag` for a string literal `tag`: true exactly
when the value is that string. -/
def isTypeTag (ty : Option JsonVal) (tag : String) : Bool :=
  match ty with
  | some (JsonVal.jstr s) => s == tag
  | _ => false

/-- First binding of a key in an object's field list. -/
def lookupField : List (String × JsonVal) → String → Option JsonVal
  | [], _ => none
  | (k, v) :: rest, key => if k = key then some v else lookupField rest key

/-- JS property read `data.key`: throws `TypeError` on `null`, yields
the field on an object, and `undefined` (`none`) on other values. -/
def jsGetProp : JsonVal → String → Except JsError (Option JsonVal)
  | JsonVal.jnull, _ => Except.error JsError.typeError
  | JsonVal.jobj fields, key => Except.ok (lookupField fields key)
  | _, _ => Except.ok none

/-- The `ws.on("message")` handler of `setupWebSocket`
(server.js lines 46-67).  The argument is the result of `JSON.parse`
(`none` when the raw message is not valid JSON, in which case the parse
throws and nothing later runs — the code has no try/catch).  For a
`"file"` message, `data.path.replace(...)` throws unless `path` is a
string, and `Buffer.from(data.content, "base64")` throws unless
`content` is a string or an array; on success the decoded payload is
staged and the `file` event is emitted.  For a `"dir_list"` message,
`files.length` throws when `files` is missing or null; otherwise the
raw value is stored under `data.dir`.  Other types are ignored. -/
def handleAgentMessage (parsed : Option JsonVal) :
    Except JsError (List WsEffect) := do
  match parsed with
  | none => Except.error JsError.syntaxError
  | some data => do
    let ty ← jsGetProp data "type"
    let fileEffects ←
      if isTypeTag ty "file" then do
        let pathVal ← jsGetProp data "path"
        match pathVal with
        | some (JsonVal.jstr p) => do
          let contentVal ← jsGetProp data "content"
          match contentVal with
          | some (JsonVal.jstr c) =>
            Except.ok [WsEffect.stageFile (stagedSavePath (sanitizeName p))
              (JsonVal.jstr c),
              WsEffect.emitFileEvent p (stagedSavePath (sanitizeName p))]
          | some (JsonVal.jarr es) =>
            Except.ok [WsEffect.stageFile (stagedSavePath (sanitizeName p))
              (JsonVal.jarr es),
              WsEffect.emitFileEvent p (stagedSavePath (sanitizeName p))]
          | _ => Except.error JsError.typeError
        | _ => Except.error JsError.typeError
      else Except.ok []
    let dirEffects ←
      if isTypeTag ty "dir_list" then do
        let dirVal ← jsGetProp data "dir"
        let filesVal ← jsGetProp data "files"
        match filesVal with
        | some JsonVal.jnull => Except.error JsError.typeError
        | none => Except.error JsError.typeError
        | some v => Except.ok [WsEffect.storeDirListing dirVal v]
      else Except.ok []
    Except.ok (fileEffects ++ dirEffects)

/-- An observable event of the `/download-all/:dir` loop: the
`request_file` command for the i-th listing entry being sent, and that
entry's fetch settling (with a staged path, a timeout, or a caught
error). -/
inductive ArchiveEvent
  | send (i : Nat)
  | resolve (i : Nat)
deriving DecidableEq

/-- How one `await fetchFileFromAgent(dir, file)` inside the archive
loop settles: resolved with a staged save path, resolved `null` after
the 60 s timeout, or rejected/threw (caught by the loop's try/catch). -/
inductive FetchOutcome
  | staged (savePath : String)
  | timeout
  | threw
deriving DecidableEq

/-- Result of one archive-assembly run: the ordered send/settle events,
the archive entries `(internalName, filePath)` appended via
`archive.file`, and the failure log lines from the catch branch. -/
structure ArchiveResult where
  events : List ArchiveEvent
  entries : List (String × String)
  failLogs : List String
deriving DecidableEq

/-- The body of the `for (const file of files)` loop of
`/download-all/:dir` (server.js lines 228-252), from the i-th entry on:
each entry's fetch is sent and awaited; a staged result is appended to
the archive under `path.basename(file)`; a `null` (timeout) result is
skipped with no log (the `if (filePath)` has no else); a thrown error
is caught, logged, and skipped. -/
def archiveRunGo (fetch : String → FetchOutcome) :
    Nat → List String → ArchiveResult
  | _, [] => ⟨[], [], []⟩
  | i, f :: rest =>
    let r := archiveRunGo fetch (i + 1) rest
    match fetch f with
    | FetchOutcome.staged p =>
        ⟨ArchiveEvent.send i :: ArchiveEvent.resolve i :: r.events,
          (basename f, p) :: r.entries, r.failLogs⟩
    | FetchOutcome.timeout =>
        ⟨ArchiveEvent.send i :: ArchiveEvent.resolve i :: r.events,
          r.entries, r.failLogs⟩
    | FetchOutcome.threw =>
        ⟨ArchiveEvent.send i :: ArchiveEvent.resolve i :: r.events,
          r.entries, ("Failed to fetch " ++ f ++ " for zip") :: r.failLogs⟩

/-- The archive-assembly loop over a cached listing, with `fetch` the
oracle describing how the agent answers each entry. -/
def archiveRun (files : List String) (fetch : String → FetchOutcome) :
    ArchiveResult :=
  archiveRunGo fetch 0 files

/-- The event trace shape of the loop: for each of `n` entries starting
at index `i`, a send immediately followed by that entry's settling. -/
def eventsFor : Nat → Nat → List ArchiveEvent
  | _, 0 => []
  | i, n + 1 =>
      ArchiveEvent.send i :: ArchiveEvent.resolve i :: eventsFor (i + 1) n

/-- Concrete 3-file cached listing for the archive scenario. -/
def c3files : List String := ["dl/a.jpg", "dl/b.jpg", "dl/c.jpg"]

/-- Concrete agent behavior: entries 1 and 3 are answered, entry 2
never is (its fetch times out). -/
def c3fetch : String → FetchOutcome := fun f =>
  if f = "dl/a.jpg" then FetchOutcome.staged "uploads/dl_a.jpg"
  else if f = "dl/c.jpg" then FetchOutcome.staged "uploads/dl_c.jpg"
  else FetchOutcome.timeout

/-- A filesystem operation attempted by the cleanup callback. -/
inductive FsOp
  | unlink (savePath : String)
deriving DecidableEq

/-- The `try { fs.unlinkSync(savePath); } catch (e) { }` of the view
handler (server.js lines 177-179): whether or not the unlink throws,
no exception escapes. -/
def tryUnlinkSwallow (unlinkThrows : Bool) : Except JsError Unit :=
  match (if unlinkThrows then Except.error JsError.typeError
         else Except.ok ()) with
  | Except.error _ => Except.ok ()
  | Except.ok _ => Except.ok ()

/-- The `res.sendFile` completion callback of `/file/view/:dir/:filename`
(server.js lines 175-181): `sendErr` is whether the send reported an
error; only when it did not is the staged file's unlink attempted, with
any unlink error swallowed.  Returns the attempted filesystem
operations and the callback's own outcome. -/
def sendFileCallbackEffects (savePath : String) (sendErr : Bool)
    (unlinkThrows : Bool) : List FsOp × Except JsError Unit :=
  if sendErr then ([], Except.ok ())
  else ([FsOp.unlink savePath], tryUnlinkSwallow unlinkThrows)

/-- Every string is a suffix of itself, so the exact-equality rule of
the matcher is subsumed by the suffix rule. -/
theorem jsEndsWith_self (s : String) : jsEndsWith s s = true :=
  List.isSuffixOf_iff_suffix.mpr (List.suffix_refl s.data)

/-- C10: the four-rule loose-matching predicate is extensionally equal
to the predicate using only its last three rules; exact equality of the
normalized paths implies the arrived-ends-with-requested suffix rule,
so dropping the exact-equality rule changes the matcher on no input. -/
theorem looseMatch_eq_looseMatchDrop (reqPath resPath : String) :
    looseMatch reqPath resPath = looseMatchDrop reqPath resPath := by
  unfold looseMatch looseMatchDrop
  cases h : (normalizeSlashes reqPath == normalizeSlashes resPath) with
  | false => simp
  | true =>
      rw [beq_iff_eq.mp h]
      simp [jsEndsWith_self]

/-- A `==` comparison against the slash character, restated with
`decide`. -/
theorem beq_slash_eq_decide (c : Char) : ('/' == c) = decide (c = '/') := by
  by_cases hc : c = '/'
  · subst hc; rfl
  · rw [decide_eq_false hc, beq_eq_false_iff_ne]
    exact Ne.symm hc

/-- JS `filename.startsWith("/")` tests exactly whether the first
character is a forward slash. -/
theorem jsStartsWith_slash (filename : String) :
    jsStartsWith filename "/" = headIsSlash filename := by
  unfold jsStartsWith headIsSlash
  cases hd : filename.data with
  | nil => rfl
  | cons c cs =>
      show List.isPrefixOf ['/'] (c :: cs) = decide (c = '/')
      simp [List.isPrefixOf, beq_slash_eq_decide c]

/-- C8 counterexample: for `dir = "d"` and a filename starting with a
backslash (a path separator), the code does not use the filename
verbatim but joins it to the directory, contradicting the claim's
condition "starts with a path separator". -/
theorem computeRequestPath_claim_counterexample :
    computeRequestPath "d" "\\x.jpg" = "d/\\x.jpg" ∧
    computeRequestPathClaim "d" "\\x.jpg" = "\\x.jpg" ∧
    computeRequestPath "d" "\\x.jpg" ≠ computeRequestPathClaim "d" "\\x.jpg" := by
  refine ⟨rfl, rfl, ?_⟩
  decide

/-- C8 (amended): the logical request path is the filename verbatim
exactly when the filename starts with a forward slash "/", with the
storage-root prefix "storage", or with a drive-letter pattern;
otherwise it is `dir` with one trailing separator stripped, joined to
the filename with a single forward slash. -/
theorem computeRequestPath_amended_eq (dir filename : String) :
    computeRequestPath dir filename = computeRequestPathAmended dir filename := by
  unfold computeRequestPath computeRequestPathAmended
  rw [jsStartsWith_slash]

/-- A resolved waiter has been deregistered: no further event changes
its state. -/
theorem runWaiter_resolved_absorbs (fp : String) (r : Option String)
    (evs : List FetchEvent) :
    evs.foldl (waiterStep fp) (WaiterState.resolvedWith r) =
      WaiterState.resolvedWith r := by
  induction evs with
  | nil => rfl
  | cons e evs ih =>
      rw [List.foldl_cons]
      cases e <;> simpa [waiterStep] using ih

/-- A still-registered waiter stays registered through any run of
non-matching arrivals. -/
theorem runWaiter_no_match (fp : String) (evs : List FetchEvent)
    (hnm : ∀ q sq, FetchEvent.arrival q sq ∈ evs → looseMatch fp q = false)
    (hto : FetchEvent.timeoutFire ∉ evs) :
    evs.foldl (waiterStep fp) WaiterState.waiting = WaiterState.waiting := by
  induction evs with
  | nil => rfl
  | cons e evs ih =>
      cases e with
      | arrival q sq =>
          have hq : looseMatch fp q = false := hnm q sq (List.mem_cons_self _ _)
          rw [List.foldl_cons]
          simp only [waiterStep, hq, Bool.false_eq_true, if_false]
          exact ih (fun q' sq' hmem => hnm q' sq' (List.mem_cons_of_mem _ hmem))
            (fun hmem => hto (List.mem_cons_of_mem _ hmem))
      | timeoutFire => exact absurd (List.mem_cons_self _ _) hto

/-- C1: a pending fetch waiter for requested path `fp` resolves with an
arrival's staged save path exactly when, after normalizing backslashes
to forward slashes, the paths are equal, or the arrived path ends with
the requested one, or the requested path ends with the arrived one, or
their basenames agree; a non-matching arrival leaves the waiter
registered (a later matching arrival still resolves it), and on a match
the waiter deregisters so later arrivals are not reconsidered. -/
theorem waiter_loose_matching (fp p sp : String) (evs : List FetchEvent) :
    (waiterStep fp WaiterState.waiting (FetchEvent.arrival p sp) =
        WaiterState.resolvedWith (some sp) ↔
      (normalizeSlashes fp = normalizeSlashes p ∨
        jsEndsWith (normalizeSlashes p) (normalizeSlashes fp) = true ∨
        jsEndsWith (normalizeSlashes fp) (normalizeSlashes p) = true ∨
        basename (normalizeSlashes fp) = basename (normalizeSlashes p))) ∧
    (looseMatch fp p = false →
      runWaiter fp (FetchEvent.arrival p sp :: evs) = runWaiter fp evs) ∧
    (looseMatch fp p = true →
      runWaiter fp (FetchEvent.arrival p sp :: evs) =
        WaiterState.resolvedWith (some sp)) := by
  refine ⟨?_, ?_, ?_⟩
  · constructor
    · intro h
      cases hm : looseMatch fp p with
      | false => simp [waiterStep, hm] at h
      | true => simpa [looseMatch, Bool.or_eq_true, beq_iff_eq, or_assoc] using hm
    · intro h
      have hm : looseMatch fp p = true := by
        simpa [looseMatch, Bool.or_eq_true, beq_iff_eq, or_assoc] using h
      simp [waiterStep, hm]
  · intro hm
    unfold runWaiter
    rw [List.foldl_cons]
    simp only [waiterStep, hm, Bool.false_eq_true, if_false]
  · intro hm
    unfold runWaiter
    rw [List.foldl_cons]
    simp only [waiterStep, hm, if_true]
    exact runWaiter_resolved_absorbs fp (some sp) evs

/-- C1 witness: a concrete run where the suffix rule fires. -/
theorem waiter_loose_matching_witness :
    runWaiter "dl/a.txt"
        [FetchEvent.arrival "storage/dl/a.txt" "uploads/storage_dl_a.txt"] =
      WaiterState.resolvedWith (some "uploads/storage_dl_a.txt") :=
  (waiter_loose_matching "dl/a.txt" "storage/dl/a.txt"
    "uploads/storage_dl_a.txt" []).2.2 (by decide)

/-- C6: a fetch whose waiter sees no matching arrival resolves as
not-found when the 60 s timer fires and is deregistered at that moment
(later events leave it resolved as not-found), and a second fetch
issued afterwards is an independent waiter that a later matching
arrival still resolves. -/
theorem fetch_timeout_deregisters (fp fp2 p2 sp2 : String)
    (evs rest : List FetchEvent)
    (hnm : ∀ q sq, FetchEvent.arrival q sq ∈ evs → looseMatch fp q = false)
    (hto : FetchEvent.timeoutFire ∉ evs)
    (hm : looseMatch fp2 p2 = true) :
    runWaiter fp (evs ++ FetchEvent.timeoutFire :: rest) =
      WaiterState.resolvedWith none ∧
    runWaiter fp2 (FetchEvent.arrival p2 sp2 :: rest) =
      WaiterState.resolvedWith (some sp2) := by
  constructor
  · unfold runWaiter
    rw [List.foldl_append, runWaiter_no_match fp evs hnm hto, List.foldl_cons]
    exact runWaiter_resolved_absorbs fp none rest
  · unfold runWaiter
    rw [List.foldl_cons]
    simp only [waiterStep, hm, if_true]
    exact runWaiter_resolved_absorbs fp2 (some sp2) rest

/-- C6 witness: an unrelated arrival, then the timer; a second fetch is
then resolved by a matching arrival. -/
theorem fetch_timeout_deregisters_witness :
    runWaiter "dl/a.txt"
        [FetchEvent.arrival "zzz/qqq.bin" "uploads/zzz_qqq.bin",
          FetchEvent.timeoutFire] = WaiterState.resolvedWith none ∧
    runWaiter "dl/b.txt"
        [FetchEvent.arrival "storage/dl/b.txt" "uploads/storage_dl_b.txt"] =
      WaiterState.resolvedWith (some "uploads/storage_dl_b.txt") :=
  fetch_timeout_deregisters "dl/a.txt" "dl/b.txt" "storage/dl/b.txt"
    "uploads/storage_dl_b.txt"
    [FetchEvent.arrival "zzz/qqq.bin" "uploads/zzz_qqq.bin"] []
    (by
      intro q sq h
      rw [List.mem_singleton] at h
      injection h with h1 h2
      subst h1
      decide)
    (by decide) (by decide)

/-- C4 counterexample: with a non-empty cached listing but no agent
connected, `/files/:dir` answers 503 instead of returning the stored
listing. -/
theorem files_cached_needs_agent_counterexample :
    filesHandler "dl" false (fun _ => some ["a.jpg"]) 3 =
      (FilesResult.agentUnavailable, []) ∧
    filesHandler "dl" false (fun _ => some ["a.jpg"]) 3 ≠
      (FilesResult.listing ["a.jpg"], []) := by
  refine ⟨rfl, ?_⟩
  decide

/-- C4 (amended): provided an agent connection is open, a directory
with a non-empty cached listing is answered immediately with exactly
the stored listing in its stored order, and no command is sent on the
agent channel. -/
theorem files_cached_immediate (dir : String)
    (cacheSeq : Nat → Option (List String)) (fuel : Nat)
    (a : String) (l : List String) (h0 : cacheSeq 0 = some (a :: l)) :
    filesHandler dir true cacheSeq fuel =
      (FilesResult.listing (a :: l), []) := by
  simp [filesHandler, h0, isNonEmptyListing]

/-- C4 witness: a concrete cached listing returned as stored. -/
theorem files_cached_immediate_witness :
    filesHandler "dl" true (fun _ => some ["b.jpg", "a.jpg", "a.jpg"]) 3 =
      (FilesResult.listing ["b.jpg", "a.jpg", "a.jpg"], []) :=
  files_cached_immediate "dl" (fun _ => some ["b.jpg", "a.jpg", "a.jpg"]) 3
    "b.jpg" ["a.jpg", "a.jpg"] rfl

/-- If every read of the cache is empty or absent, the polling loop
exhausts its whole budget and reports nothing. -/
theorem pollForListing_all_empty (cacheSeq : Nat → Option (List String))
    (hempty : ∀ k, isNonEmptyListing (cacheSeq k) = false) :
    ∀ (fuel k : Nat), pollForListing cacheSeq k fuel = none := by
  intro fuel
  induction fuel with
  | zero => intro k; simp [pollForListing, hempty k]
  | succ fuel ih => intro k; simp [pollForListing, hempty k, ih (k + 1)]

/-- If the polling loop reports nothing, every read it made during its
whole budget was empty or absent. -/
theorem pollForListing_none (cacheSeq : Nat → Option (List String)) :
    ∀ (fuel k : Nat),
      pollForListing cacheSeq k fuel = none →
      ∀ j, k ≤ j → j ≤ k + fuel → isNonEmptyListing (cacheSeq j) = false := by
  intro fuel
  induction fuel with
  | zero =>
      intro k h j hkj hjk
      have hj : j = k := Nat.le_antisymm (by simpa using hjk) hkj
      subst hj
      cases hc : isNonEmptyListing (cacheSeq j) with
      | false => rfl
      | true =>
          rw [pollForListing, hc, if_pos rfl] at h
          rw [h] at hc
          simp [isNonEmptyListing] at hc
  | succ fuel ih =>
      intro k h j hkj hjk
      cases hc : isNonEmptyListing (cacheSeq k) with
      | true =>
          rw [pollForListing, hc, if_pos rfl] at h
          rw [h] at hc
          simp [isNonEmptyListing] at hc
      | false =>
          rw [pollForListing, hc] at h
          simp only [Bool.false_eq_true, if_false] at h
          rcases Nat.eq_or_lt_of_le hkj with heq | hlt
          · rw [heq] at hc
            exact hc
          · exact ih (k + 1) h j hlt (by omega)

/-- C7: an agent push of an empty file list is indistinguishable from
no push at all — if every read of the cache during the 15 s window is
empty or absent, `/files/:dir` (with an agent connected) answers 504
after sending one request command; and conversely a 504 is produced
only when every read of the whole window, initial check included, found
an empty or absent listing (so the timeout never fires while a
non-empty listing is available before the deadline). -/
theorem files_empty_push_times_out (dir : String)
    (cacheSeq : Nat → Option (List String)) (fuel : Nat) :
    ((∀ k, isNonEmptyListing (cacheSeq k) = false) →
      filesHandler dir true cacheSeq fuel =
        (FilesResult.listingTimeout, [AgentCommand.requestDir dir])) ∧
    (filesHandler dir true cacheSeq fuel =
        (FilesResult.listingTimeout, [AgentCommand.requestDir dir]) →
      ∀ j, j ≤ fuel + 1 → isNonEmptyListing (cacheSeq j) = false) := by
  constructor
  · intro hempty
    simp [filesHandler, hempty 0, pollForListing_all_empty cacheSeq hempty fuel 1]
  · intro h j hj
    cases hc0 : isNonEmptyListing (cacheSeq 0) with
    | true => simp [filesHandler, hc0] at h
    | false =>
        cases hp : pollForListing cacheSeq 1 fuel with
        | some l => simp [filesHandler, hc0, hp] at h
        | none =>
            rcases Nat.eq_zero_or_pos j with hj0 | hj1
            · rw [hj0]; exact hc0
            · exact pollForListing_none cacheSeq fuel 1 hp j hj1 (by omega)

/-- C7 witness: a cache that always holds an empty pushed list ends in
a 504 with one request command sent. -/
theorem files_empty_push_times_out_witness :
    filesHandler "dl" true (fun _ => some []) 2 =
      (FilesResult.listingTimeout, [AgentCommand.requestDir "dl"]) :=
  (files_empty_push_times_out "dl" (fun _ => some []) 2).1 (fun _ => rfl)

/-- The archive loop's event trace depends only on how many entries the
listing has: one send immediately followed by that entry's settling,
per entry. -/
theorem archiveRunGo_events (fetch : String → FetchOutcome) :
    ∀ (l : List String) (i : Nat),
      (archiveRunGo fetch i l).events = eventsFor i l.length := by
  intro l
  induction l with
  | nil => intro i; rfl
  | cons f rest ih =>
      intro i
      cases hf : fetch f <;>
        simp [archiveRunGo, hf, eventsFor, ih (i + 1)]

/-- In the loop's trace, anything preceding the send of entry `m > i`
contains the settling of entry `m - 1`. -/
theorem eventsFor_send_after_resolve :
    ∀ (n i m : Nat) (pre post : List ArchiveEvent),
      i < m →
      eventsFor i n = pre ++ ArchiveEvent.send m :: post →
      ArchiveEvent.resolve (m - 1) ∈ pre := by
  intro n
  induction n with
  | zero =>
      intro i m pre post him h
      rw [eventsFor] at h
      exact absurd h.symm (by simp)
  | succ n ih =>
      intro i m pre post him h
      rw [eventsFor] at h
      cases pre with
      | nil =>
          rw [List.nil_append] at h
          injection h with h1 h2
          injection h1 with h1
          omega
      | cons a pre1 =>
          rw [List.cons_append] at h
          injection h with h1 h2
          cases pre1 with
          | nil =>
              rw [List.nil_append] at h2
              injection h2 with h21 h22
              exact absurd h21 (by simp)
          | cons b pre2 =>
              rw [List.cons_append] at h2
              injection h2 with h21 h22
              rcases Nat.eq_or_lt_of_le (Nat.succ_le_of_lt him) with heq | hlt
              · have hb : ArchiveEvent.resolve (m - 1) = b := by
                  rw [← h21]
                  congr 1
                  omega
                rw [hb]
                exact List.mem_cons_of_mem _ (List.mem_cons_self _ _)
              · exact List.mem_cons_of_mem _
                  (List.mem_cons_of_mem _ (ih (i + 1) m pre2 post hlt h22))

/-- C2: within one archive-assembly run, the request command for the
(i+1)-th listing entry is only ever sent after the i-th entry's fetch
has settled — every prefix of the trace ending just before
`send (i+1)` contains `resolve i`; fetches are strictly sequential. -/
theorem archive_fetches_sequential (files : List String)
    (fetch : String → FetchOutcome) (i : Nat)
    (pre post : List ArchiveEvent)
    (h : (archiveRun files fetch).events =
      pre ++ ArchiveEvent.send (i + 1) :: post) :
    ArchiveEvent.resolve i ∈ pre := by
  rw [archiveRun, archiveRunGo_events] at h
  have hmem := eventsFor_send_after_resolve files.length 0 (i + 1) pre post
    (Nat.succ_pos i) h
  simpa using hmem

/-- C2 witness: a two-entry run; the prefix before the second send
contains the first settling. -/
theorem archive_fetches_sequential_witness :
    ArchiveEvent.resolve 0 ∈ [ArchiveEvent.send 0, ArchiveEvent.resolve 0] :=
  archive_fetches_sequential ["dl/a.jpg", "dl/b.jpg"]
    (fun _ => FetchOutcome.timeout) 0
    [ArchiveEvent.send 0, ArchiveEvent.resolve 0] [ArchiveEvent.resolve 1]
    (by rfl)

/-- The archive entries produced by the loop do not depend on the
numbering of the remaining entries. -/
theorem archiveRunGo_entries_irrel (fetch : String → FetchOutcome) :
    ∀ (l : List String) (i j : Nat),
      (archiveRunGo fetch i l).entries = (archiveRunGo fetch j l).entries := by
  intro l
  induction l with
  | nil => intro i j; rfl
  | cons f rest ih =>
      intro i j
      cases hf : fetch f <;> simp [archiveRunGo, hf, ih (i + 1) (j + 1)]

/-- Every listing entry is processed: the trace has two events per
entry regardless of fetch failures. -/
theorem archiveRunGo_events_len (fetch : String → FetchOutcome) :
    ∀ (l : List String) (i : Nat),
      (archiveRunGo fetch i l).events.length = 2 * l.length := by
  intro l
  induction l with
  | nil => intro i; rfl
  | cons f rest ih =>
      intro i
      cases hf : fetch f <;>
        (simp [archiveRunGo, hf, ih (i + 1)]; omega)

/-- Removing one failing entry from the listing does not change the
entries of the produced archive. -/
theorem archiveRunGo_skip (fetch : String → FetchOutcome) (f : String)
    (hf : fetch f = FetchOutcome.timeout ∨ fetch f = FetchOutcome.threw) :
    ∀ (xs ys : List String) (i : Nat),
      (archiveRunGo fetch i (xs ++ f :: ys)).entries =
        (archiveRunGo fetch i (xs ++ ys)).entries := by
  intro xs
  induction xs with
  | nil =>
      intro ys i
      rcases hf with hf | hf <;>
        simp [archiveRunGo, hf, archiveRunGo_entries_irrel fetch ys (i + 1) i]
  | cons x xs ih =>
      intro ys i
      cases hx : fetch x <;> simp [archiveRunGo, hx, ih ys (i + 1)]

/-- C3 counterexample: in the 3-file scenario where entry 2 times out,
that entry's fetch fails and is skipped, yet the failure log is empty —
a timed-out fetch (`null` result) is skipped silently, so not every
failing entry is logged, while a thrown error would be. -/
theorem archive_timeout_unlogged_counterexample :
    c3fetch "dl/b.jpg" = FetchOutcome.timeout ∧
    (archiveRun c3files c3fetch).entries =
      [("a.jpg", "uploads/dl_a.jpg"), ("c.jpg", "uploads/dl_c.jpg")] ∧
    (archiveRun c3files c3fetch).failLogs = [] := by
  refine ⟨rfl, ?_, rfl⟩
  decide

/-- C3 (amended): a listing entry whose fetch fails (timeout or thrown
error) is skipped while assembly continues — removing it changes no
archive entry, every entry is still processed (two trace events per
listing entry), and in the concrete 3-file scenario where the agent
answers entries 1 and 3 but entry 2 times out, the archive holds
exactly those two entries named by their base filenames; only thrown
errors are logged, a timeout is skipped silently. -/
theorem archive_skips_failed_fetch (xs ys : List String) (f : String)
    (fetch : String → FetchOutcome)
    (hf : fetch f = FetchOutcome.timeout ∨ fetch f = FetchOutcome.threw) :
    (archiveRun (xs ++ f :: ys) fetch).entries =
      (archiveRun (xs ++ ys) fetch).entries ∧
    (archiveRun (xs ++ f :: ys) fetch).events.length =
      2 * (xs.length + 1 + ys.length) ∧
    (archiveRun c3files c3fetch).entries =
      [("a.jpg", "uploads/dl_a.jpg"), ("c.jpg", "uploads/dl_c.jpg")] := by
  refine ⟨archiveRunGo_skip fetch f hf xs ys 0, ?_, by decide⟩
  rw [archiveRun, archiveRunGo_events_len]
  simp
  omega

/-- C3 witness: the concrete 3-file scenario instantiating the skip
property at the timed-out entry. -/
theorem archive_skips_failed_fetch_witness :
    (archiveRun (["dl/a.jpg"] ++ "dl/b.jpg" :: ["dl/c.jpg"]) c3fetch).entries =
      (archiveRun (["dl/a.jpg"] ++ ["dl/c.jpg"]) c3fetch).entries ∧
    (archiveRun (["dl/a.jpg"] ++ "dl/b.jpg" :: ["dl/c.jpg"]) c3fetch).events.length =
      2 * (1 + 1 + 1) ∧
    (archiveRun c3files c3fetch).entries =
      [("a.jpg", "uploads/dl_a.jpg"), ("c.jpg", "uploads/dl_c.jpg")] :=
  archive_skips_failed_fetch ["dl/a.jpg"] ["dl/c.jpg"] "dl/b.jpg" c3fetch
    (Or.inl (by decide))

/-- C5: the message handler crashes on malformed input instead of
dropping it — a non-JSON message makes `JSON.parse` throw (the handler
has no try/catch), a `"file"` message without a `path` throws a
`TypeError` from `data.path.replace`, and a `"dir_list"` message
without a `files` list throws from `files.length`; a well-formed
`"file"` message stages the payload and emits the waiter event. -/
theorem malformed_message_crashes :
    handleAgentMessage none = Except.error JsError.syntaxError ∧
    handleAgentMessage (some (JsonVal.jobj [("type", JsonVal.jstr "file")])) =
      Except.error JsError.typeError ∧
    handleAgentMessage (some (JsonVal.jobj [("type", JsonVal.jstr "dir_list"),
        ("dir", JsonVal.jstr "dl")])) = Except.error JsError.typeError ∧
    handleAgentMessage (some (JsonVal.jobj [("type", JsonVal.jstr "file"),
        ("path", JsonVal.jstr "dl/a.jpg"), ("content", JsonVal.jstr "QUJD")])) =
      Except.ok [WsEffect.stageFile "uploads/dl_a.jpg" (JsonVal.jstr "QUJD"),
        WsEffect.emitFileEvent "dl/a.jpg" "uploads/dl_a.jpg"] := by
  refine ⟨rfl, ?_, ?_, ?_⟩ <;> rfl

/-- C9 counterexample: when the send reports an error, no deletion of
the staged file is attempted, contradicting "the deletion attempt is
made whether the send succeeded or failed"; on a successful send it is
attempted. -/
theorem view_delete_skipped_on_send_error :
    (sendFileCallbackEffects "uploads/dl_a.jpg" true false).1 = [] ∧
    (sendFileCallbackEffects "uploads/dl_a.jpg" false false).1 =
      [FsOp.unlink "uploads/dl_a.jpg"] := by
  decide

/-- C9 (amended): after the response is fully sent the staged file's
deletion is attempted exactly when the send succeeded (a send error
skips it), and any error raised by the deletion itself is swallowed —
the callback never throws. -/
theorem view_cleanup_after_send (savePath : String)
    (sendErr unlinkThrows : Bool) :
    (sendFileCallbackEffects savePath sendErr unlinkThrows).1 =
      (if sendErr then [] else [FsOp.unlink savePath]) ∧
    (sendFileCallbackEffects savePath sendErr unlinkThrows).2 =
      Except.ok () := by
  cases sendErr <;> cases unlinkThrows <;>
    simp [sendFileCallbackEffects, tryUnlinkSwallow]
